import Mathlib

/-!
Shallow embedding of the saltyboyC betting core:
`src/applications/bot/src/betting_strategy.py` (feature extraction and
wager sizing), `src/applications/bot/src/database.py` (match settlement and
Elo/streak updates) and `src/applications/bot/src/training.py` (offline
model fitter replay loop), together with theorems checking the
natural-language specification against these definitions.

Numeric conventions: Python ints are `ℤ`, SQL rows are structures,
float arithmetic is modelled over `ℝ` (rational where the computation is
exact), `int(x)` (truncation toward zero) is `pyInt`, and database access
is replaced by explicit state passing (the match log is a `List`, the
fighter table a `List` of records).
-/

/-- Configuration constants from betting_strategy.py. -/
def MAX_BET_CAP : ℤ := 300000

/-- X-tier (gimmick) stake ceiling. -/
def X_TIER_CAP : ℤ := 20000

/-- Wealth-preservation cap on the balance used for sizing. -/
def EFFECTIVE_BALANCE_CAP : ℤ := 5000000

/-- Minimum sample size for the head-to-head / common-opponent features. -/
def MIN_MATCHES : ℕ := 3

/-- Streak staleness window in hours. -/
def STALE_THRESHOLD_HOURS : ℤ := 24

/-- Python `int(x)`: truncation toward zero. -/
noncomputable def pyInt (x : ℝ) : ℤ := if 0 ≤ x then ⌊x⌋ else ⌈x⌉

/-- A row of the `fighter` table (database.py `Fighter`). Timestamps are
modelled as integer seconds; `last_match_date` is nullable. -/
structure Fighter where
  id : ℤ
  name : String
  tier : String
  prev_tier : String
  elo : ℤ
  tier_elo : ℤ
  best_streak : ℤ
  current_streak : ℤ
  last_match_date : Option ℤ
deriving DecidableEq, Repr

/-- A row of the `match` table (database.py `Match`), with the columns the
core reads and writes. -/
structure StoredMatch where
  id : ℤ
  fighter_red : ℤ
  fighter_blue : ℤ
  winner : ℤ
  bet_red : ℤ
  bet_blue : ℤ
  streak_red : ℤ
  streak_blue : ℤ
  tier : String
deriving DecidableEq, Repr

/-- BettingEngine.get_safe_streak: 0 for a missing fighter, a falsy (zero
or NULL, both modelled as 0) streak, a NULL last-match date, or a
last match older than the 24h staleness window; otherwise the stored
current streak. `now` and the timestamp are in seconds. -/
def get_safe_streak (now : ℤ) (f : Option Fighter) : ℤ :=
  match f with
  | none => 0
  | some f =>
    if f.current_streak = 0 then 0
    else
      match f.last_match_date with
      | none => 0
      | some t => if now - t > STALE_THRESHOLD_HOURS * 3600 then 0 else f.current_streak

/-- The matches in which `r` and `b` met in either role
(the SQL filter of BettingEngine.get_h2h_score). -/
def h2hMatches (log : List StoredMatch) (r b : ℤ) : List StoredMatch :=
  log.filter fun m =>
    (m.fighter_red = r ∧ m.fighter_blue = b) ∨ (m.fighter_red = b ∧ m.fighter_blue = r)

/-- Number of those meetings `r` won. -/
def h2hWins (log : List StoredMatch) (r b : ℤ) : ℕ :=
  ((h2hMatches log r b).filter fun m => m.winner = r).length

/-- BettingEngine.get_h2h_score: neutral 0 below the minimum sample size,
otherwise red's win fraction over the meetings minus 0.5. -/
def get_h2h_score (log : List StoredMatch) (r b : ℤ) : ℚ :=
  if (h2hMatches log r b).length < MIN_MATCHES then 0
  else (h2hWins log r b : ℚ) / ((h2hMatches log r b).length : ℚ) - 1/2

/-- The matches in which fighter `i` participated, as returned by the
common-opponent SQL query: the query carries `LIMIT 100` with no ORDER BY,
modelled as the first 100 rows of the log. -/
def fighterMatches (log : List StoredMatch) (i : ℤ) : List StoredMatch :=
  (log.filter fun m => m.fighter_red = i ∨ m.fighter_blue = i).take 100

/-- The opponent of `selfId` in match `m`. -/
def oppOf (m : StoredMatch) (selfId : ℤ) : ℤ :=
  if m.fighter_red = selfId then m.fighter_blue else m.fighter_red

/-- Insert-or-overwrite into an association list, keeping the insertion
position of an existing key (Python dict semantics). -/
def upsert (acc : List (ℤ × Bool)) (k : ℤ) (v : Bool) : List (ℤ × Bool) :=
  if acc.any fun p => p.1 = k then
    acc.map fun p => if p.1 = k then (k, v) else p
  else acc ++ [(k, v)]

/-- BettingEngine.get_comp_score's `build_map`: opponent ↦ did `selfId`
win the (last recorded) match against that opponent. -/
def build_map (ms : List StoredMatch) (selfId : ℤ) : List (ℤ × Bool) :=
  ms.foldl (fun acc m => upsert acc (oppOf m selfId) (decide (m.winner = selfId))) []

/-- Association-list lookup (Python `dict` access). -/
def mapLookup (l : List (ℤ × Bool)) (k : ℤ) : Option Bool :=
  (l.find? fun p => p.1 = k).map Prod.snd

/-- The (common_wins, common_total) loop of get_comp_score: for each
opponent in red's map that is also in blue's map, red-win/blue-loss counts
one win and one total, red-loss/blue-win counts one total only. -/
def compCounts (redMap blueMap : List (ℤ × Bool)) : ℕ × ℕ :=
  redMap.foldl
    (fun wt p =>
      match mapLookup blueMap p.1 with
      | none => wt
      | some blueRes =>
        if p.2 = true ∧ blueRes = false then (wt.1 + 1, wt.2 + 1)
        else if p.2 = false ∧ blueRes = true then (wt.1, wt.2 + 1)
        else wt)
    (0, 0)

/-- BettingEngine.get_comp_score: the common-opponent ("triangle") feature. -/
def get_comp_score (log : List StoredMatch) (r b : ℤ) : ℚ :=
  let redMap := build_map (fighterMatches log r) r
  let blueMap := build_map (fighterMatches log b) b
  let wt := compCounts redMap blueMap
  if wt.2 < MIN_MATCHES then 0
  else (wt.1 : ℚ) / (wt.2 : ℚ) - 1/2

/-- Written from the spec sentence of claim C8 only, for comparison with
`get_comp_score`: the same computation but over all of a fighter's logged
matches, with no LIMIT-100 cutoff. -/
def comp_score_allMatches (log : List StoredMatch) (r b : ℤ) : ℚ :=
  let redMap := build_map (log.filter fun m => m.fighter_red = r ∨ m.fighter_blue = r) r
  let blueMap := build_map (log.filter fun m => m.fighter_red = b ∨ m.fighter_blue = b) b
  let wt := compCounts redMap blueMap
  if wt.2 < MIN_MATCHES then 0
  else (wt.1 : ℚ) / (wt.2 : ℚ) - 1/2

/-- The scoring coefficients (`BettingEngine.weights`); `.get` with a
default of 0.0 on a complete dict reads the stored value. -/
structure Weights where
  intercept : ℝ
  tier_elo : ℝ
  streak : ℝ
  h2h : ℝ
  comp : ℝ

/-- The linear score z of BettingEngine.get_bet. -/
noncomputable def zscore (log : List StoredMatch) (now : ℤ) (w : Weights)
    (r b : Fighter) : ℝ :=
  w.intercept
    + w.tier_elo * ((r.tier_elo - b.tier_elo : ℤ) : ℝ)
    + w.streak * ((get_safe_streak now (some r) - get_safe_streak now (some b) : ℤ) : ℝ)
    + w.h2h * ((get_h2h_score log r.id b.id : ℚ) : ℝ)
    + w.comp * ((get_comp_score log r.id b.id : ℚ) : ℝ)

/-- The logistic transform `1 / (1 + exp(-z))`. In real arithmetic the
exponential never overflows; the OverflowError branch of the source
returns 0.0 or 1.0, values the subsequent skepticism clamp maps to the
same band, so every theorem below is stated for an arbitrary pre-clamp
probability. -/
noncomputable def logistic (z : ℝ) : ℝ := 1 / (1 + Real.exp (-z))

/-- The two sequential skepticism clamps of get_bet. -/
noncomputable def clamp_prob (p : ℝ) : ℝ :=
  let p1 := if p > 0.85 then 0.85 else p
  if p1 < 0.15 then 0.15 else p1

/-- Wager sizing from the chosen confidence (steps 2-5 of get_bet):
effective balance, dynamic-Kelly fraction, X-tier cap, final clamp. -/
noncomputable def stake_of (r b : Fighter) (balance : ℤ) (confidence : ℝ) : ℤ :=
  let betting_balance : ℤ := min balance EFFECTIVE_BALANCE_CAP
  let strength : ℝ := (confidence - 0.5) * 2
  let wager : ℤ := pyInt ((betting_balance : ℝ) * 0.05 * strength)
  let wager : ℤ := if r.tier = "X" ∨ b.tier = "X" then min wager X_TIER_CAP else wager
  min (max 1 wager) MAX_BET_CAP

/-- The side selection of get_bet: red iff the clamped probability
favours red. -/
noncomputable def colour_of (prob_red : ℝ) : String :=
  if prob_red > 0.5 then "red" else "blue"

/-- The confidence of get_bet: the clamped probability of the favoured
side. -/
noncomputable def conf_of (prob_red : ℝ) : ℝ :=
  if prob_red > 0.5 then prob_red else 1 - prob_red

/-- BettingEngine.get_bet. The fighter rows fetched by name are passed as
`Option Fighter` (the data-access boundary), the match log and the clock
as explicit state. Returns (wager, colour, confidence). -/
noncomputable def get_bet (log : List StoredMatch) (now : ℤ) (w : Weights)
    (red blue : Option Fighter) (balance : ℤ) : ℤ × String × ℝ :=
  match red, blue with
  | some r, some b =>
    if r.tier = "P" ∨ b.tier = "P" then (1, "red", 0.5)
    else
      let prob_red := clamp_prob (logistic (zscore log now w r b))
      (stake_of r b balance (conf_of prob_red), colour_of prob_red, conf_of prob_red)
  | _, _ => (1, "red", 0.5)

/-- The raised-to-the-tenth rating transform of Database._calculate_elo:
`math.pow(10, elo / 400)`. -/
noncomputable def trPow (elo : ℤ) : ℝ := (10 : ℝ) ^ ((elo : ℝ) / 400)

/-- Expected score of `elo` against `opp_elo` (`es_a` in
Database._calculate_elo). -/
noncomputable def expected_score (elo opp_elo : ℤ) : ℝ :=
  trPow elo / (trPow elo + trPow opp_elo)

/-- Database._calculate_elo: the updated rating, truncated to int. -/
noncomputable def calculate_elo (elo opp_elo : ℤ) (won : Bool) : ℤ :=
  pyInt ((elo : ℝ) + 32 * ((if won then (1 : ℝ) else 0) - expected_score elo opp_elo))

/-- The streak flip rule of Database._update_fighter: a winner extends a
positive streak or restarts at 1; a loser extends a negative streak or
restarts at -1. -/
def new_streak (old : ℤ) (won : Bool) : ℤ :=
  if won then (if old > 0 then old + 1 else 1)
  else (if old < 0 then old - 1 else -1)

/-- Database._update_fighter as a pure record transformer: the fighter row
after the UPDATE statement, given the match tier, the supplied best-streak
value, the opponent's pre-match ratings and the result. `now` stands for
the update timestamp. -/
noncomputable def update_fighter (f : Fighter) (tier : String) (best_streak : ℤ)
    (opp_elo opp_tier_elo : ℤ) (won : Bool) (now : ℤ) : Fighter :=
  let tier_elo : ℤ := if tier = f.tier then f.tier_elo else 1500
  let ns : ℤ := new_streak f.current_streak won
  { f with
    tier := tier
    prev_tier := f.tier
    elo := calculate_elo f.elo opp_elo won
    tier_elo := calculate_elo tier_elo opp_tier_elo won
    best_streak := max (max best_streak f.best_streak) ns
    current_streak := ns
    last_match_date := some now }

/-- Modelled from the spec: `src/objects.py` is absent from the sources;
the spec says only two of several formats are eligible for statistics and
names exhibition-type formats as excluded, and database.py lists
MATCHMAKING and TOURNAMENT as accepted. -/
inductive MatchFormat where
  | matchmaking
  | tournament
  | exhibition
deriving DecidableEq, Repr

/-- Database.ACCEPTED_MATCH_FORMATS. -/
def ACCEPTED_MATCH_FORMATS : List MatchFormat :=
  [MatchFormat.matchmaking, MatchFormat.tournament]

/-- Modelled from the spec: the bot-side Match value object
(`src/objects.py` is absent); the fields are exactly those record_match
reads, nullable where record_match checks for None. -/
structure BotMatch where
  match_format : MatchFormat
  tier : String
  fighter_red_name : String
  fighter_blue_name : String
  winner : Option String
  bet_red : Option ℤ
  bet_blue : Option ℤ
  streak_red : Option ℤ
  streak_blue : Option ℤ
deriving DecidableEq, Repr

/-- The persistent store: the fighter table, the match log, and a clock
from which `generate_safe_id` draws fresh time-based ids. -/
structure DB where
  fighters : List Fighter
  match_log : List StoredMatch
  clock : ℤ
deriving DecidableEq, Repr

/-- Database._get_or_create_fighter: look up by name; on a miss, insert a
fresh row with ratings 1500, streak 0, the given tier (also as prev_tier)
and the given best-streak value. -/
def get_or_create_fighter (db : DB) (name tier : String) (best_streak : ℤ) :
    DB × Fighter :=
  match db.fighters.find? fun f => f.name = name with
  | some f => (db, f)
  | none =>
    let f : Fighter :=
      { id := db.clock, name := name, tier := tier, prev_tier := tier
        elo := 1500, tier_elo := 1500, best_streak := best_streak
        current_streak := 0, last_match_date := none }
    ({ db with fighters := db.fighters ++ [f], clock := db.clock + 1 }, f)

/-- Replace the row of the fighter with id `fid` (the UPDATE ... WHERE id). -/
def setFighter (db : DB) (fid : ℤ) (f' : Fighter) : DB :=
  { db with fighters := db.fighters.map fun g => if g.id = fid then f' else g }

/-- Database.record_match as a state transition: eligibility and
missing-field guards, fighter get-or-create, winner resolution, match
insert, then both fighter updates using the pre-update snapshots. -/
noncomputable def record_match (db : DB) (m : BotMatch) (now : ℤ) : DB :=
  if m.match_format ∉ ACCEPTED_MATCH_FORMATS then db
  else
    match m.streak_red, m.streak_blue with
    | some sr, some sb =>
      let p1 := get_or_create_fighter db m.fighter_red_name m.tier sr
      let p2 := get_or_create_fighter p1.1 m.fighter_blue_name m.tier sb
      let db2 := p2.1
      let fr := p1.2
      let fb := p2.2
      match m.bet_blue, m.bet_red, m.winner with
      | some bb, some br, some wname =>
        if fr.name = wname ∨ fb.name = wname then
          let winner : ℤ := if fr.name = wname then fr.id else fb.id
          let row : StoredMatch :=
            { id := db2.clock, fighter_red := fr.id, fighter_blue := fb.id
              winner := winner, bet_red := br, bet_blue := bb
              streak_red := sr, streak_blue := sb, tier := m.tier }
          let db3 : DB :=
            { db2 with match_log := db2.match_log ++ [row], clock := db2.clock + 1 }
          let red_won := fr.id = winner
          let db4 := setFighter db3 fr.id
            (update_fighter fr m.tier sr fb.elo fb.tier_elo red_won now)
          setFighter db4 fb.id
            (update_fighter fb m.tier sb fr.elo fr.tier_elo (!red_won) now)
        else db2
      | _, _, _ => db2
    | _, _ => db

/-- Training constants from training.py. -/
def K_FACTOR : ℝ := 32

/-- Initial rating in the fitter's in-memory mirror. -/
def STARTING_ELO : ℝ := 1500

/-- Minimum in-memory meetings before the replayed h2h/comp features carry
signal (training.py uses 1, not betting_strategy.py's 3). -/
def MIN_MATCHES_FOR_STATS : ℕ := 1

/-- Warm-up threshold: replayed matches before this index produce no row. -/
def WARMUP_MATCHES : ℕ := 1000

/-- training.py FighterTracker: the in-memory per-fighter mirror. History
entries are (opponent id, won?). -/
structure Tracker where
  tier_elo : ℝ
  match_history : List (ℤ × Bool)
  current_streak : ℤ

/-- A fresh tracker (defaultdict default). -/
noncomputable def Tracker.init : Tracker :=
  { tier_elo := STARTING_ELO, match_history := [], current_streak := 0 }

/-- The columns train_model's query selects per match (the stored streak
columns are selected but replaced by simulated values, so only the ids and
the winner feed the replay). -/
structure TrainRow where
  fighter_red : ℤ
  fighter_blue : ℤ
  winner : ℤ
deriving DecidableEq, Repr

/-- training.py calculate_elo_change: the symmetric, un-truncated K=32
rating transfer from the loser to the winner. -/
noncomputable def calculate_elo_change (winner_elo loser_elo : ℝ) : ℝ :=
  K_FACTOR * (1 - 1 / (1 + (10 : ℝ) ^ ((loser_elo - winner_elo) / 400)))

/-- training.py get_h2h_win_rate over the in-memory history: win fraction
against this opponent, neutral 0.5 with no meetings. -/
noncomputable def train_h2h_win_rate (fs : ℤ → Tracker) (fid opp : ℤ) : ℚ :=
  let meetings := (fs fid).match_history.filter fun m => m.1 = opp
  let wins := (meetings.filter fun m => m.2 = true).length
  if meetings.length < MIN_MATCHES_FOR_STATS then 1/2
  else (wins : ℚ) / (meetings.length : ℚ)

/-- training.py get_comp_win_rate: red's history collapsed to a per-
opponent dict, blue's history iterated match-by-match; the same asymmetric
triangle counting as the live engine, neutral 0.5 below the minimum. -/
noncomputable def train_comp_win_rate (fs : ℤ → Tracker) (red_id blue_id : ℤ) : ℚ :=
  let red_opps := (fs red_id).match_history.foldl
    (fun acc m => upsert acc m.1 m.2) []
  let wt := (fs blue_id).match_history.foldl
    (fun wt m =>
      match mapLookup red_opps m.1 with
      | none => wt
      | some red_res =>
        if red_res = true ∧ m.2 = false then (wt.1 + 1, wt.2 + 1)
        else if red_res = false ∧ m.2 = true then (wt.1, wt.2 + 1)
        else wt)
    ((0, 0) : ℕ × ℕ)
  if wt.2 < MIN_MATCHES_FOR_STATS then 1/2
  else (wt.1 : ℚ) / (wt.2 : ℚ)

/-- One training row: the features computed from the in-memory state just
before the match, and the label. -/
structure TrainFeatRow where
  elo : ℝ
  streak : ℤ
  h2h : ℚ
  comp : ℚ
  win : Bool

/-- The feature row train_model appends for a match, as a function of the
state just before it. -/
noncomputable def rowOf (fs : ℤ → Tracker) (m : TrainRow) : TrainFeatRow :=
  { elo := (fs m.fighter_red).tier_elo - (fs m.fighter_blue).tier_elo
    streak := (fs m.fighter_red).current_streak - (fs m.fighter_blue).current_streak
    h2h := train_h2h_win_rate fs m.fighter_red m.fighter_blue - 1/2
    comp := train_comp_win_rate fs m.fighter_red m.fighter_blue - 1/2
    win := m.winner = m.fighter_red }

/-- A tracker after a win in the replay loop: rating up by the transfer,
win appended to history, streak extended or restarted at 1. -/
def Tracker.afterWin (t : Tracker) (opp : ℤ) (change : ℝ) : Tracker :=
  { tier_elo := t.tier_elo + change
    match_history := t.match_history ++ [(opp, true)]
    current_streak := if t.current_streak > 0 then t.current_streak + 1 else 1 }

/-- A tracker after a loss in the replay loop. -/
def Tracker.afterLoss (t : Tracker) (opp : ℤ) (change : ℝ) : Tracker :=
  { tier_elo := t.tier_elo - change
    match_history := t.match_history ++ [(opp, false)]
    current_streak := if t.current_streak < 0 then t.current_streak - 1 else -1 }

/-- One iteration of the train_model replay loop, acting on the in-memory
fighter map (the two participants are distinct rows of the map). -/
noncomputable def trainStep (fs : ℤ → Tracker) (m : TrainRow) : ℤ → Tracker :=
  let r := m.fighter_red
  let b := m.fighter_blue
  if m.winner = r then
    let change := calculate_elo_change (fs r).tier_elo (fs b).tier_elo
    Function.update (Function.update fs r ((fs r).afterWin b change)) b
      ((fs b).afterLoss r change)
  else
    let change := calculate_elo_change (fs b).tier_elo (fs r).tier_elo
    Function.update (Function.update fs r ((fs r).afterLoss b change)) b
      ((fs b).afterWin r change)

/-- The in-memory state after replaying a match list from a clean start. -/
noncomputable def trainState (ms : List TrainRow) : ℤ → Tracker :=
  ms.foldl trainStep fun _ => Tracker.init

/-- The row-collecting replay loop of train_model: `c` is the running
match counter; a row is emitted for a match only once the counter exceeds
the warm-up threshold, and the state is advanced either way. -/
noncomputable def trainAux (fs : ℤ → Tracker) (c : ℕ) :
    List TrainRow → List TrainFeatRow
  | [] => []
  | m :: rest =>
    let rows := trainAux (trainStep fs m) (c + 1) rest
    if WARMUP_MATCHES < c + 1 then rowOf fs m :: rows else rows

/-- train_model's accumulated training data for a (date, id)-ordered log. -/
noncomputable def trainData (ms : List TrainRow) : List TrainFeatRow :=
  trainAux (fun _ => Tracker.init) 0 ms

/-- Written from the spec's section 4.4 streak rule, for comparison with
the replay loop: one paired streak update per match, winner and loser
flipped per Database._update_fighter's `new_streak` rule. -/
def dbStreakStep (s : ℤ → ℤ) (m : TrainRow) : ℤ → ℤ :=
  let won := m.winner = m.fighter_red
  Function.update
    (Function.update s m.fighter_red (new_streak (s m.fighter_red) won))
    m.fighter_blue (new_streak (s m.fighter_blue) (!won))

/-- The section 4.4 streak state after a match list, every fighter starting
at streak 0. -/
def dbStreaks (ms : List TrainRow) : ℤ → ℤ :=
  ms.foldl dbStreakStep fun _ => 0

/-- Written from the spec's section 4.4 rating rule, for comparison with
the replay loop: one paired update per match through the persisted
Database._calculate_elo (integer-truncated per fighter), both sides using
pre-match values, with no tier change anywhere in the log. -/
noncomputable def dbEloStep (s : ℤ → ℤ) (m : TrainRow) : ℤ → ℤ :=
  let won := m.winner = m.fighter_red
  let re := s m.fighter_red
  let be := s m.fighter_blue
  Function.update
    (Function.update s m.fighter_red (calculate_elo re be won))
    m.fighter_blue (calculate_elo be re (!won))

/-- The section 4.4 tier-rating state after a match list with no tier
changes, every fighter starting at 1500. -/
noncomputable def dbElos (ms : List TrainRow) : ℤ → ℤ :=
  ms.foldl dbEloStep fun _ => 1500

/-! Theorems. Concrete inputs for witnesses and counterexamples first. -/

/-- A weight set for concrete instantiations. -/
noncomputable def wConc : Weights := ⟨-0.02, 0.0055, 0.012, 1.5, 0.16⟩

/-- A P-tier (unrated) fighter row. -/
def fP : Fighter := ⟨7, "pot", "P", "P", 1500, 1500, 0, 0, none⟩

/-- An A-tier fighter row. -/
def fA : Fighter := ⟨8, "alpha", "A", "A", 1600, 1600, 2, 2, some 0⟩

/-- Another A-tier fighter row. -/
def fB : Fighter := ⟨9, "beta", "A", "A", 1500, 1500, 0, 0, some 0⟩

/-- An X-tier (gimmick) fighter row. -/
def fX : Fighter := ⟨10, "gimmick", "X", "X", 1500, 1500, 0, 0, some 0⟩

/-- The minimal-stake fallback branch of get_bet: a missing record or a
P-tier participant yields exactly (1, "red", 0.5). -/
theorem get_bet_fallback (log : List StoredMatch) (now : ℤ) (w : Weights)
    (red blue : Option Fighter) (balance : ℤ)
    (h : red = none ∨ blue = none ∨ (∃ r, red = some r ∧ r.tier = "P") ∨
      (∃ b, blue = some b ∧ b.tier = "P")) :
    get_bet log now w red blue balance = (1, "red", 0.5) := by
  cases red with
  | none => rfl
  | some r =>
    cases blue with
    | none => rfl
    | some b =>
      have hp : r.tier = "P" ∨ b.tier = "P" := by
        rcases h with h | h | ⟨r', hr, hP⟩ | ⟨b', hb, hP⟩
        · exact absurd h (by simp)
        · exact absurd h (by simp)
        · exact Or.inl (by injection hr with h'; rw [h']; exact hP)
        · exact Or.inr (by injection hb with h'; rw [h']; exact hP)
      simp only [get_bet, if_pos hp]

/-- The scored branch of get_bet: with both rows present and neither
P-tier, the result is the stake/colour/confidence triple derived from the
clamped logistic probability. -/
theorem get_bet_scored (log : List StoredMatch) (now : ℤ) (w : Weights)
    (r b : Fighter) (balance : ℤ) (hr : r.tier ≠ "P") (hb : b.tier ≠ "P") :
    get_bet log now w (some r) (some b) balance =
      (stake_of r b balance (conf_of (clamp_prob (logistic (zscore log now w r b)))),
       colour_of (clamp_prob (logistic (zscore log now w r b))),
       conf_of (clamp_prob (logistic (zscore log now w r b)))) := by
  have hp : ¬(r.tier = "P" ∨ b.tier = "P") := by
    intro h; rcases h with h | h
    · exact hr h
    · exact hb h
  simp only [get_bet, if_neg hp]

/-- The final stake is at least 1, whatever the confidence. -/
theorem stake_of_one_le (r b : Fighter) (balance : ℤ) (c : ℝ) :
    1 ≤ stake_of r b balance c := by
  unfold stake_of
  exact le_min (le_max_left 1 _) (by norm_num [MAX_BET_CAP])

/-- The final stake never exceeds the hard cap. -/
theorem stake_of_le_cap (r b : Fighter) (balance : ℤ) (c : ℝ) :
    stake_of r b balance c ≤ MAX_BET_CAP := by
  unfold stake_of
  exact min_le_right _ _

/-- With a gimmick-tier participant the final stake never exceeds the
X-tier cap. -/
theorem stake_of_le_x_cap (r b : Fighter) (balance : ℤ) (c : ℝ)
    (hx : r.tier = "X" ∨ b.tier = "X") :
    stake_of r b balance c ≤ X_TIER_CAP := by
  simp only [stake_of]
  rw [if_pos hx]
  refine le_trans (min_le_left _ _) (max_le ?_ (min_le_right _ _))
  norm_num [X_TIER_CAP]

/-- The clamped probability lies in [0.15, 0.85] for every real input. -/
theorem clamp_prob_mem (p : ℝ) : 0.15 ≤ clamp_prob p ∧ clamp_prob p ≤ 0.85 := by
  simp only [clamp_prob]
  by_cases h1 : p > 0.85
  · rw [if_pos h1]
    norm_num
  · rw [if_neg h1]
    by_cases h2 : p < 0.15
    · rw [if_pos h2]
      norm_num
    · rw [if_neg h2]
      exact ⟨not_lt.mp h2, not_lt.mp h1⟩

/-- The chosen confidence is the max of the clamped probability and its
complement. -/
theorem conf_of_eq_max (p : ℝ) : conf_of p = max p (1 - p) := by
  unfold conf_of
  split_ifs with h
  · exact (max_eq_left (by linarith)).symm
  · exact (max_eq_right (by linarith)).symm

/-- Confidence bounds from a clamped probability. -/
theorem conf_of_mem (p : ℝ) (h1 : 0.15 ≤ p) (h2 : p ≤ 0.85) :
    0.5 ≤ conf_of p ∧ conf_of p ≤ 0.85 := by
  rw [conf_of_eq_max]
  constructor
  · rcases le_or_lt p 0.5 with h | h
    · exact le_max_of_le_right (by linarith)
    · exact le_max_of_le_left (by linarith)
  · exact max_le (by linarith) (by linarith)

/-- C1: on the scored path (both fighter records present, neither
unrated-tier), the stake returned by get_bet lies in [1, MAX_BET_CAP],
and whenever either fighter is X-tier it lies in [1, X_TIER_CAP]. -/
theorem c1_stake_bounded (log : List StoredMatch) (now : ℤ) (w : Weights)
    (r b : Fighter) (balance : ℤ) (hr : r.tier ≠ "P") (hb : b.tier ≠ "P") :
    1 ≤ (get_bet log now w (some r) (some b) balance).1 ∧
    (get_bet log now w (some r) (some b) balance).1 ≤ MAX_BET_CAP ∧
    ((r.tier = "X" ∨ b.tier = "X") →
      (get_bet log now w (some r) (some b) balance).1 ≤ X_TIER_CAP) := by
  rw [get_bet_scored log now w r b balance hr hb]
  exact ⟨stake_of_one_le r b balance _, stake_of_le_cap r b balance _,
    fun hx => stake_of_le_x_cap r b balance _ hx⟩

/-- Witness for C1 at a concrete gimmick-tier pairing. -/
theorem c1_stake_bounded_witness :
    1 ≤ (get_bet [] 0 wConc (some fA) (some fX) 1000000).1 ∧
    (get_bet [] 0 wConc (some fA) (some fX) 1000000).1 ≤ MAX_BET_CAP ∧
    ((fA.tier = "X" ∨ fX.tier = "X") →
      (get_bet [] 0 wConc (some fA) (some fX) 1000000).1 ≤ X_TIER_CAP) :=
  c1_stake_bounded [] 0 wConc fA fX 1000000 (by decide) (by decide)

/-- C2: on the scored path the returned confidence equals
max(clamped probability, 1 - clamped probability) and lies in
[0.5, 0.85]; the clamped probability itself lies in [0.15, 0.85] no
matter how extreme the linear score is. -/
theorem c2_confidence_band (log : List StoredMatch) (now : ℤ) (w : Weights)
    (r b : Fighter) (balance : ℤ) (hr : r.tier ≠ "P") (hb : b.tier ≠ "P") :
    0.15 ≤ clamp_prob (logistic (zscore log now w r b)) ∧
    clamp_prob (logistic (zscore log now w r b)) ≤ 0.85 ∧
    (get_bet log now w (some r) (some b) balance).2.2 =
      max (clamp_prob (logistic (zscore log now w r b)))
        (1 - clamp_prob (logistic (zscore log now w r b))) ∧
    0.5 ≤ (get_bet log now w (some r) (some b) balance).2.2 ∧
    (get_bet log now w (some r) (some b) balance).2.2 ≤ 0.85 := by
  obtain ⟨hc1, hc2⟩ := clamp_prob_mem (logistic (zscore log now w r b))
  obtain ⟨hm1, hm2⟩ := conf_of_mem (clamp_prob (logistic (zscore log now w r b))) hc1 hc2
  rw [get_bet_scored log now w r b balance hr hb]
  exact ⟨hc1, hc2, conf_of_eq_max _, hm1, hm2⟩

/-- Witness for C2 at a concrete A-tier pairing. -/
theorem c2_confidence_band_witness :
    0.15 ≤ clamp_prob (logistic (zscore [] 0 wConc fA fB)) ∧
    clamp_prob (logistic (zscore [] 0 wConc fA fB)) ≤ 0.85 ∧
    (get_bet [] 0 wConc (some fA) (some fB) 1000000).2.2 =
      max (clamp_prob (logistic (zscore [] 0 wConc fA fB)))
        (1 - clamp_prob (logistic (zscore [] 0 wConc fA fB))) ∧
    0.5 ≤ (get_bet [] 0 wConc (some fA) (some fB) 1000000).2.2 ∧
    (get_bet [] 0 wConc (some fA) (some fB) 1000000).2.2 ≤ 0.85 :=
  c2_confidence_band [] 0 wConc fA fB 1000000 (by decide) (by decide)

/-- C3: a missing fighter record or an unrated (P-tier) participant makes
get_bet return exactly stake 1, side red, confidence 0.5, regardless of
balance, ratings, streaks or the log. -/
theorem c3_unrated_fallback (log : List StoredMatch) (now : ℤ) (w : Weights)
    (red blue : Option Fighter) (balance : ℤ)
    (h : red = none ∨ blue = none ∨ (∃ r, red = some r ∧ r.tier = "P") ∨
      (∃ b, blue = some b ∧ b.tier = "P")) :
    get_bet log now w red blue balance = (1, "red", 0.5) :=
  get_bet_fallback log now w red blue balance h

/-- Witness for C3: a P-tier red fighter at a huge balance. -/
theorem c3_unrated_fallback_witness :
    get_bet [] 0 wConc (some fP) (some fA) 30000000 = (1, "red", 0.5) :=
  c3_unrated_fallback [] 0 wConc (some fP) (some fA) 30000000
    (Or.inr (Or.inr (Or.inl ⟨fP, rfl, rfl⟩)))

/-- C10: whenever the minimal-stake fallback triggers, the returned side
is "red", for every input. -/
theorem c10_fallback_side_red (log : List StoredMatch) (now : ℤ) (w : Weights)
    (red blue : Option Fighter) (balance : ℤ)
    (h : red = none ∨ blue = none ∨ (∃ r, red = some r ∧ r.tier = "P") ∨
      (∃ b, blue = some b ∧ b.tier = "P")) :
    (get_bet log now w red blue balance).2.1 = "red" := by
  rw [get_bet_fallback log now w red blue balance h]

/-- Witness for C10: a missing blue record. -/
theorem c10_fallback_side_red_witness :
    (get_bet [] 0 wConc (some fA) none 12345).2.1 = "red" :=
  c10_fallback_side_red [] 0 wConc (some fA) none 12345 (Or.inr (Or.inl rfl))

/-- The rating transform is positive. -/
theorem trPow_pos (e : ℤ) : 0 < trPow e :=
  Real.rpow_pos_of_pos (by norm_num) _

/-- The paired expected scores sum to 1 exactly (real arithmetic). -/
theorem expected_score_add (a b : ℤ) :
    expected_score a b + expected_score b a = 1 := by
  unfold expected_score
  have ha := trPow_pos a
  have hb := trPow_pos b
  rw [add_comm (trPow b) (trPow a), div_add_div_same, div_self (by positivity)]

/-- The expected score is strictly positive. -/
theorem expected_score_pos (a b : ℤ) : 0 < expected_score a b := by
  unfold expected_score
  have ha := trPow_pos a
  have hb := trPow_pos b
  positivity

/-- The expected score is strictly below 1. -/
theorem expected_score_lt_one (a b : ℤ) : expected_score a b < 1 := by
  unfold expected_score
  have ha := trPow_pos a
  have hb := trPow_pos b
  rw [div_lt_one (by positivity)]
  linarith

/-- Closed form of the expected score in terms of the rating difference. -/
theorem expected_score_eq_inv (a b : ℤ) :
    expected_score a b = 1 / (1 + (10 : ℝ) ^ (((b : ℝ) - (a : ℝ)) / 400)) := by
  unfold expected_score trPow
  have ha : (0 : ℝ) < (10 : ℝ) ^ ((a : ℝ) / 400) :=
    Real.rpow_pos_of_pos (by norm_num) _
  rw [show ((b : ℝ) - (a : ℝ)) / 400 = (b : ℝ) / 400 - (a : ℝ) / 400 by ring,
    Real.rpow_sub (by norm_num : (0 : ℝ) < 10),
    one_add_div (ne_of_gt ha), one_div_div, add_comm ((10 : ℝ) ^ ((a : ℝ) / 400)) _]

/-- Truncation toward zero agrees with the floor on nonnegative reals. -/
theorem pyInt_eq_floor (x : ℝ) (h : 0 ≤ x) : pyInt x = ⌊x⌋ := if_pos h

/-- The winner's branch of calculate_elo, with the score substituted. -/
theorem calculate_elo_true_val (a b : ℤ) :
    calculate_elo a b true = pyInt ((a : ℝ) + 32 * (1 - expected_score a b)) := by
  unfold calculate_elo
  norm_num

/-- The loser's branch of calculate_elo, with the score substituted. -/
theorem calculate_elo_false_val (a b : ℤ) :
    calculate_elo a b false = pyInt ((a : ℝ) + -(32 * expected_score a b)) := by
  unfold calculate_elo
  congr 1
  norm_num

/-- The winner's new rating is the floor of the exact update, whenever the
old rating is nonnegative. -/
theorem calculate_elo_win_eq (a b : ℤ) (ha : 0 ≤ a) :
    calculate_elo a b true = a + ⌊32 * (1 - expected_score a b)⌋ := by
  have hlt := expected_score_lt_one a b
  have hnn : (0 : ℝ) ≤ (a : ℝ) + 32 * (1 - expected_score a b) := by
    have : (0 : ℝ) ≤ (a : ℝ) := by exact_mod_cast ha
    nlinarith
  rw [calculate_elo_true_val, pyInt_eq_floor _ hnn, Int.floor_int_add]

/-- The loser's new rating is the floor of the exact update, whenever the
old rating is at least 32. -/
theorem calculate_elo_loss_eq (a b : ℤ) (ha : 32 ≤ a) :
    calculate_elo a b false = a + ⌊-(32 * expected_score a b)⌋ := by
  have hpos := expected_score_pos a b
  have hlt := expected_score_lt_one a b
  have hnn : (0 : ℝ) ≤ (a : ℝ) + -(32 * expected_score a b) := by
    have : (32 : ℝ) ≤ (a : ℝ) := by exact_mod_cast ha
    nlinarith
  rw [calculate_elo_false_val, pyInt_eq_floor _ hnn, Int.floor_int_add]

/-- Truncation toward zero always lands on the floor or the ceiling. -/
theorem pyInt_mem_floor_ceil (x : ℝ) : pyInt x = ⌊x⌋ ∨ pyInt x = ⌈x⌉ := by
  unfold pyInt
  split_ifs with h
  · exact Or.inl rfl
  · exact Or.inr rfl

/-- Ceiling of an integer cast plus a real, with the cast on the left. -/
theorem ceil_intCast_add (z : ℤ) (r : ℝ) : ⌈(z : ℝ) + r⌉ = z + ⌈r⌉ := by
  rw [add_comm ((z : ℝ)) r, Int.ceil_add_int, add_comm]

/-- For every pair of integer ratings, the stored winner and loser deltas
sum to 0, -1 or 1: each side truncates the same exact transfer toward
zero independently, landing on its floor or its ceiling. -/
theorem calculate_elo_pair_sum (a b : ℤ) :
    (calculate_elo a b true - a) + (calculate_elo b a false - b) = 0 ∨
    (calculate_elo a b true - a) + (calculate_elo b a false - b) = -1 ∨
    (calculate_elo a b true - a) + (calculate_elo b a false - b) = 1 := by
  have hsum := expected_score_add a b
  have hwv := calculate_elo_true_val a b
  have hlv := calculate_elo_false_val b a
  have hneg : ((b : ℝ) + -(32 * expected_score b a)) =
      (b : ℝ) + -(32 * (1 - expected_score a b)) := by
    have h : expected_score b a = 1 - expected_score a b := by linarith
    rw [h]
  rw [hneg] at hlv
  have hfc := Int.floor_le_ceil (32 * (1 - expected_score a b))
  have hcf := Int.ceil_le_floor_add_one (32 * (1 - expected_score a b))
  rcases pyInt_mem_floor_ceil ((a : ℝ) + 32 * (1 - expected_score a b)) with hw | hw <;>
    rcases pyInt_mem_floor_ceil ((b : ℝ) + -(32 * (1 - expected_score a b))) with hl | hl <;>
    rw [hwv, hlv, hw, hl] <;>
    simp only [Int.floor_int_add, ceil_intCast_add, Int.floor_neg, Int.ceil_neg] <;>
    omega

/-- C4 (amended): the unrounded real rating deltas are exactly zero-sum;
the stored integer deltas, each truncated toward zero per fighter, sum to
-1, 0 or 1; when the winner's rating is nonnegative and the loser's is at
least 32 both truncations are floors and the sum is 0 or -1. The same
function computes both the global and the tier-scoped rating in
`update_fighter`. -/
theorem c4_zero_sum_amended (a b : ℤ) :
    32 * (1 - expected_score a b) + 32 * (0 - expected_score b a) = 0 ∧
    ((calculate_elo a b true - a) + (calculate_elo b a false - b) = 0 ∨
     (calculate_elo a b true - a) + (calculate_elo b a false - b) = -1 ∨
     (calculate_elo a b true - a) + (calculate_elo b a false - b) = 1) ∧
    (0 ≤ a → 32 ≤ b →
      (calculate_elo a b true - a) + (calculate_elo b a false - b) = 0 ∨
      (calculate_elo a b true - a) + (calculate_elo b a false - b) = -1) := by
  refine ⟨?_, calculate_elo_pair_sum a b, ?_⟩
  · have hsum := expected_score_add a b
    linarith
  · intro ha hb
    rw [calculate_elo_win_eq a b ha, calculate_elo_loss_eq b a hb]
    have hsum := expected_score_add a b
    have heq : -(32 * expected_score b a) = -(32 * (1 - expected_score a b)) := by
      linarith
    rw [heq]
    have h1 : ⌊32 * (1 - expected_score a b)⌋ ≤ ⌈32 * (1 - expected_score a b)⌉ :=
      Int.floor_le_ceil _
    have h2 : ⌈32 * (1 - expected_score a b)⌉ ≤ ⌊32 * (1 - expected_score a b)⌋ + 1 :=
      Int.ceil_le_floor_add_one _
    rw [Int.floor_neg]
    omega

/-- Witness for the amended C4 at ratings (1500, 1600), discharging the
floor-case hypotheses. -/
theorem c4_zero_sum_amended_witness :
    (calculate_elo 1500 1600 true - 1500) + (calculate_elo 1600 1500 false - 1600) = 0 ∨
    (calculate_elo 1500 1600 true - 1500) + (calculate_elo 1600 1500 false - 1600) = -1 :=
  (c4_zero_sum_amended 1500 1600).2.2 (by norm_num) (by norm_num)

/-- The factor 10^(1/4) that the expected score sees at a 100-point
rating gap. -/
noncomputable def tenQuarter : ℝ := (10 : ℝ) ^ ((1 : ℝ) / 4)

/-- Positivity of the gap factor. -/
theorem tenQuarter_pos : 0 < tenQuarter := Real.rpow_pos_of_pos (by norm_num) _

/-- The fourth power of the gap factor is 10. -/
theorem tenQuarter_pow : tenQuarter ^ (4 : ℕ) = 10 := by
  unfold tenQuarter
  rw [← Real.rpow_natCast ((10 : ℝ) ^ ((1 : ℝ) / 4)) 4,
    ← Real.rpow_mul (by norm_num : (0 : ℝ) ≤ 10)]
  norm_num

/-- A rational lower bound on the gap factor. -/
theorem tenQuarter_gt : 5 / 3 < tenQuarter := by
  by_contra h
  push_neg at h
  have h4 : tenQuarter ^ (4 : ℕ) ≤ (5 / 3 : ℝ) ^ (4 : ℕ) :=
    pow_le_pow_left₀ tenQuarter_pos.le h 4
  rw [tenQuarter_pow] at h4
  norm_num at h4

/-- A rational upper bound on the gap factor. -/
theorem tenQuarter_lt : tenQuarter < 21 / 11 := by
  by_contra h
  push_neg at h
  have h4 : (21 / 11 : ℝ) ^ (4 : ℕ) ≤ tenQuarter ^ (4 : ℕ) :=
    pow_le_pow_left₀ (by norm_num) h 4
  rw [tenQuarter_pow] at h4
  norm_num at h4

/-- The expected score of 1500 against 1600 in closed form. -/
theorem es_1500_1600 : expected_score 1500 1600 = 1 / (1 + tenQuarter) := by
  rw [expected_score_eq_inv]
  unfold tenQuarter
  norm_num

/-- The exact winner delta at (1500, 1600) lies strictly between 20 and 21. -/
theorem delta_1500_1600_bounds :
    20 < 32 * (1 - expected_score 1500 1600) ∧
    32 * (1 - expected_score 1500 1600) < 21 := by
  rw [es_1500_1600]
  have hu1 := tenQuarter_gt
  have hu2 := tenQuarter_lt
  have hpos : (0 : ℝ) < 1 + tenQuarter := by linarith [tenQuarter_pos]
  have hform : (32 : ℝ) * (1 - 1 / (1 + tenQuarter)) = 32 * tenQuarter / (1 + tenQuarter) := by
    field_simp
  rw [hform]
  constructor
  · rw [lt_div_iff₀ hpos]
    linarith
  · rw [div_lt_iff₀ hpos]
    linarith

/-- The stored winner rating after a 1500-vs-1600 win. -/
theorem calc_elo_win_1500_1600 : calculate_elo 1500 1600 true = 1520 := by
  rw [calculate_elo_win_eq 1500 1600 (by norm_num)]
  obtain ⟨h1, h2⟩ := delta_1500_1600_bounds
  have hf : ⌊32 * (1 - expected_score 1500 1600)⌋ = 20 := by
    rw [Int.floor_eq_iff]
    constructor
    · push_cast
      linarith
    · push_cast
      linarith
  rw [hf]
  norm_num

/-- The stored loser rating after a 1600-vs-1500 loss. -/
theorem calc_elo_loss_1600_1500 : calculate_elo 1600 1500 false = 1579 := by
  rw [calculate_elo_loss_eq 1600 1500 (by norm_num)]
  have hsum := expected_score_add 1500 1600
  obtain ⟨h1, h2⟩ := delta_1500_1600_bounds
  have hes : -(32 * expected_score 1600 1500) = -(32 * (1 - expected_score 1500 1600)) := by
    linarith
  rw [hes]
  have hf : ⌊-(32 * (1 - expected_score 1500 1600))⌋ = -21 := by
    rw [Int.floor_eq_iff]
    constructor
    · push_cast
      linarith
    · push_cast
      linarith
  rw [hf]
  norm_num

/-- A same-tier winner row at rating 1500. -/
def fW : Fighter := ⟨11, "winner", "A", "A", 1500, 1500, 0, 0, some 0⟩

/-- A same-tier loser row at rating 1600. -/
def fL : Fighter := ⟨12, "loser", "A", "A", 1600, 1600, 0, 0, some 0⟩

/-- C4 counterexample: settling a 1500-vs-1600 match with no tier change
gives the winner +20 but the loser -21; the stored update is not zero-sum
on the pair. -/
theorem c4_zero_sum_counterexample :
    ¬((update_fighter fW "A" 0 fL.elo fL.tier_elo true 0).elo - fW.elo =
      -((update_fighter fL "A" 0 fW.elo fW.tier_elo false 0).elo - fL.elo)) := by
  have hw : (update_fighter fW "A" 0 fL.elo fL.tier_elo true 0).elo =
      calculate_elo 1500 1600 true := rfl
  have hl : (update_fighter fL "A" 0 fW.elo fW.tier_elo false 0).elo =
      calculate_elo 1600 1500 false := rfl
  rw [hw, hl, calc_elo_win_1500_1600, calc_elo_loss_1600_1500]
  norm_num [fW, fL]

/-- C9 (amended): the stored best-streak high-water mark is the maximum of
the supplied best-streak value, the previously stored mark, and the new
streak taken with its sign (not its magnitude); consequently after a win
the mark is at least the new streak's magnitude. -/
theorem c9_best_streak_amended (f : Fighter) (tier : String) (bs opp_e opp_te : ℤ)
    (won : Bool) (now : ℤ) :
    (update_fighter f tier bs opp_e opp_te won now).best_streak =
      max (max bs f.best_streak) (new_streak f.current_streak won) ∧
    (won = true →
      |new_streak f.current_streak won| ≤
        (update_fighter f tier bs opp_e opp_te won now).best_streak) := by
  constructor
  · rfl
  · intro hw
    subst hw
    have hpos : 0 < new_streak f.current_streak true := by
      show 0 < if f.current_streak > 0 then f.current_streak + 1 else 1
      split_ifs with h
      · omega
      · omega
    have : |new_streak f.current_streak true| = new_streak f.current_streak true :=
      abs_of_pos hpos
    rw [this]
    exact le_max_right _ _

/-- Witness for the amended C9: a winning fighter's mark covers the new
streak magnitude. -/
theorem c9_best_streak_amended_witness :
    |new_streak fB.current_streak true| ≤
      (update_fighter fB "A" 0 1500 1500 true 0).best_streak :=
  (c9_best_streak_amended fB "A" 0 1500 1500 true 0).2 rfl

/-- C9 counterexample: a fighter with stored mark 0 and streak 0 who
loses ends with mark 0, not the claimed
max(previous mark, supplied value, |new streak|) = 1. -/
theorem c9_best_streak_counterexample :
    ¬((update_fighter fB "A" 0 1500 1500 false 0).best_streak =
      max (max 0 fB.best_streak)
        |(update_fighter fB "A" 0 1500 1500 false 0).current_streak|) := by
  have h1 : (update_fighter fB "A" 0 1500 1500 false 0).best_streak =
      max (max 0 fB.best_streak) (new_streak fB.current_streak false) := rfl
  have h2 : (update_fighter fB "A" 0 1500 1500 false 0).current_streak =
      new_streak fB.current_streak false := rfl
  rw [h1, h2]
  norm_num [fB, new_streak]

/-- Get-or-create never touches the match log. -/
theorem get_or_create_match_log (db : DB) (n t : String) (bs : ℤ) :
    (get_or_create_fighter db n t bs).1.match_log = db.match_log := by
  unfold get_or_create_fighter
  cases h : db.fighters.find? fun f => f.name = n with
  | none => rfl
  | some f => rfl

/-- Get-or-create preserves every existing fighter row. -/
theorem get_or_create_fighters_mem (db : DB) (n t : String) (bs : ℤ)
    (f0 : Fighter) (hf : f0 ∈ db.fighters) :
    f0 ∈ (get_or_create_fighter db n t bs).1.fighters := by
  unfold get_or_create_fighter
  cases h : db.fighters.find? fun f => f.name = n with
  | none => exact List.mem_append_left _ hf
  | some f => exact hf

/-- With an accepted format, both streaks present, and any of winner or
pool totals missing, record_match stops right after the two
get-or-create calls. -/
theorem record_match_no_winner (db : DB) (m : BotMatch) (now : ℤ)
    (hf : m.match_format ∈ ACCEPTED_MATCH_FORMATS) (sr sb : ℤ)
    (hsr : m.streak_red = some sr) (hsb : m.streak_blue = some sb)
    (h : m.winner = none ∨ m.bet_red = none ∨ m.bet_blue = none) :
    record_match db m now =
      (get_or_create_fighter
        (get_or_create_fighter db m.fighter_red_name m.tier sr).1
        m.fighter_blue_name m.tier sb).1 := by
  unfold record_match
  rw [if_neg (not_not_intro hf), hsr, hsb]
  rcases h with h | h | h <;> rw [h] <;>
    rcases m.bet_blue with _ | bb <;> rcases m.bet_red with _ | br <;> rfl

/-- C6 (amended): an ineligible format or a missing streak value leaves
the store untouched; a missing winner or missing pool total leaves the
match log unchanged and every existing fighter row intact, but the two
participants' rows are created first if absent. -/
theorem c6_skip_amended (db : DB) (m : BotMatch) (now : ℤ) :
    (m.match_format ∉ ACCEPTED_MATCH_FORMATS → record_match db m now = db) ∧
    ((m.streak_red = none ∨ m.streak_blue = none) → record_match db m now = db) ∧
    ((m.winner = none ∨ m.bet_red = none ∨ m.bet_blue = none) →
      (record_match db m now).match_log = db.match_log ∧
      ∀ f ∈ db.fighters, f ∈ (record_match db m now).fighters) := by
  refine ⟨?_, ?_, ?_⟩
  · intro h
    unfold record_match
    rw [if_pos h]
  · intro h
    unfold record_match
    by_cases hfmt : m.match_format ∉ ACCEPTED_MATCH_FORMATS
    · rw [if_pos hfmt]
    · rw [if_neg hfmt]
      rcases h with h | h <;> rw [h] <;> rcases m.streak_red with _ | sr <;> rfl
  · intro h
    by_cases hfmt : m.match_format ∉ ACCEPTED_MATCH_FORMATS
    · have he : record_match db m now = db := by
        unfold record_match
        rw [if_pos hfmt]
      rw [he]
      exact ⟨rfl, fun f hf => hf⟩
    · rcases hsr : m.streak_red with _ | sr
      · have he : record_match db m now = db := by
          unfold record_match
          rw [if_neg hfmt, hsr]
        rw [he]
        exact ⟨rfl, fun f hf => hf⟩
      · rcases hsb : m.streak_blue with _ | sb
        · have he : record_match db m now = db := by
            unfold record_match
            rw [if_neg hfmt, hsr, hsb]
          rw [he]
          exact ⟨rfl, fun f hf => hf⟩
        · rw [record_match_no_winner db m now (not_not.mp hfmt) sr sb hsr hsb h]
          constructor
          · rw [get_or_create_match_log, get_or_create_match_log]
          · intro f hf
            exact get_or_create_fighters_mem _ _ _ _ f
              (get_or_create_fighters_mem _ _ _ _ f hf)

/-- An exhibition-format match for the C6 witness. -/
def mExh : BotMatch :=
  ⟨.exhibition, "A", "r", "b", some "r", some 1, some 1, some 0, some 0⟩

/-- An empty store. -/
def db6 : DB := ⟨[], [], 100⟩

/-- Witness for the amended C6: an exhibition match is a full no-op. -/
theorem c6_skip_amended_witness : record_match db6 mExh 0 = db6 :=
  (c6_skip_amended db6 mExh 0).1 (by decide)

/-- A winnerless matchmaking match between two unknown fighters. -/
def m6 : BotMatch :=
  ⟨.matchmaking, "A", "redf", "bluef", none, some 10, some 10, some 0, some 0⟩

/-- C6 counterexample: a match with an accepted format but no winner is
not a no-op when its participants are unknown — their fighter rows are
created before the winner check, so stored state changes. -/
theorem c6_counterexample : record_match db6 m6 0 ≠ db6 := by
  rw [record_match_no_winner db6 m6 0 (by decide) 0 0 rfl rfl (Or.inl rfl)]
  decide

/-- A match-log row with only the participant/winner columns populated,
for concrete logs. -/
def mkSM (r b w : ℤ) : StoredMatch := ⟨0, r, b, w, 0, 0, 0, 0, "A"⟩

/-- C7: the head-to-head feature is exactly 0 below three meetings, and
otherwise red's win fraction over the meetings minus 0.5, always within
[-0.5, 0.5]. -/
theorem c7_h2h_score (log : List StoredMatch) (r b : ℤ) :
    ((h2hMatches log r b).length < MIN_MATCHES → get_h2h_score log r b = 0) ∧
    (MIN_MATCHES ≤ (h2hMatches log r b).length →
      get_h2h_score log r b =
        (h2hWins log r b : ℚ) / ((h2hMatches log r b).length : ℚ) - 1/2 ∧
      -(1/2) ≤ get_h2h_score log r b ∧ get_h2h_score log r b ≤ 1/2) := by
  constructor
  · intro h
    unfold get_h2h_score
    rw [if_pos h]
  · intro h
    have hne : ¬((h2hMatches log r b).length < MIN_MATCHES) := not_lt.mpr h
    have heq : get_h2h_score log r b =
        (h2hWins log r b : ℚ) / ((h2hMatches log r b).length : ℚ) - 1/2 := by
      unfold get_h2h_score
      rw [if_neg hne]
    refine ⟨heq, ?_, ?_⟩
    · rw [heq]
      have h0 : (0 : ℚ) ≤ (h2hWins log r b : ℚ) / ((h2hMatches log r b).length : ℚ) :=
        div_nonneg (by positivity) (by positivity)
      linarith
    · rw [heq]
      have hpos : (0 : ℚ) < ((h2hMatches log r b).length : ℚ) := by
        have : 0 < (h2hMatches log r b).length := lt_of_lt_of_le (by norm_num [MIN_MATCHES]) h
        exact_mod_cast this
      have hle : (h2hWins log r b : ℚ) ≤ ((h2hMatches log r b).length : ℚ) := by
        have : h2hWins log r b ≤ (h2hMatches log r b).length := List.length_filter_le _ _
        exact_mod_cast this
      have h1 : (h2hWins log r b : ℚ) / ((h2hMatches log r b).length : ℚ) ≤ 1 :=
        (div_le_one hpos).mpr hle
      linarith

/-- A log with three meetings of fighters 1 and 2, two won by 1. -/
def h2hLog : List StoredMatch := [mkSM 1 2 1, mkSM 1 2 2, mkSM 2 1 1]

/-- Witness for C7 on a concrete three-meeting log. -/
theorem c7_h2h_score_witness :
    get_h2h_score h2hLog 1 2 =
      (h2hWins h2hLog 1 2 : ℚ) / ((h2hMatches h2hLog 1 2).length : ℚ) - 1/2 ∧
    -(1/2) ≤ get_h2h_score h2hLog 1 2 ∧ get_h2h_score h2hLog 1 2 ≤ 1/2 :=
  (c7_h2h_score h2hLog 1 2).2 (by decide)

/-- The common-win count never exceeds the common-total count in the
triangle loop. -/
theorem compCounts_fst_le_snd (redMap blueMap : List (ℤ × Bool)) :
    (compCounts redMap blueMap).1 ≤ (compCounts redMap blueMap).2 := by
  unfold compCounts
  suffices h : ∀ (l : List (ℤ × Bool)) (wt : ℕ × ℕ), wt.1 ≤ wt.2 →
      (l.foldl
        (fun wt p =>
          match mapLookup blueMap p.1 with
          | none => wt
          | some blueRes =>
            if p.2 = true ∧ blueRes = false then (wt.1 + 1, wt.2 + 1)
            else if p.2 = false ∧ blueRes = true then (wt.1, wt.2 + 1)
            else wt)
        wt).1 ≤
      (l.foldl
        (fun wt p =>
          match mapLookup blueMap p.1 with
          | none => wt
          | some blueRes =>
            if p.2 = true ∧ blueRes = false then (wt.1 + 1, wt.2 + 1)
            else if p.2 = false ∧ blueRes = true then (wt.1, wt.2 + 1)
            else wt)
        wt).2 by
    exact h redMap (0, 0) (le_refl 0)
  intro l
  induction l with
  | nil => intro wt hwt; exact hwt
  | cons p rest ih =>
    intro wt hwt
    simp only [List.foldl_cons]
    apply ih
    cases hml : mapLookup blueMap p.1 with
    | none => exact hwt
    | some blueRes =>
      by_cases h1 : p.2 = true ∧ blueRes = false
      · simp only [if_pos h1]
        omega
      · by_cases h2 : p.2 = false ∧ blueRes = true
        · simp only [if_neg h1, if_pos h2]
          omega
        · simp only [if_neg h1, if_neg h2]
          exact hwt

/-- The (common_wins, common_total) pair that get_comp_score computes for
a pair of fighters over a log. -/
def compWT (log : List StoredMatch) (r b : ℤ) : ℕ × ℕ :=
  compCounts (build_map (fighterMatches log r) r) (build_map (fighterMatches log b) b)

/-- C8 (amended): over the at-most-100 matches per fighter that the
LIMIT-100 query returns, the common-opponent feature is exactly 0 below
three common meetings, and otherwise common_wins / common_total - 0.5,
always within [-0.5, 0.5]. -/
theorem c8_comp_score_amended (log : List StoredMatch) (r b : ℤ) :
    ((compWT log r b).2 < MIN_MATCHES → get_comp_score log r b = 0) ∧
    (MIN_MATCHES ≤ (compWT log r b).2 →
      get_comp_score log r b =
        ((compWT log r b).1 : ℚ) / ((compWT log r b).2 : ℚ) - 1/2 ∧
      -(1/2) ≤ get_comp_score log r b ∧ get_comp_score log r b ≤ 1/2) := by
  have hdef : get_comp_score log r b =
      if (compWT log r b).2 < MIN_MATCHES then 0
      else ((compWT log r b).1 : ℚ) / ((compWT log r b).2 : ℚ) - 1/2 := rfl
  constructor
  · intro h
    rw [hdef, if_pos h]
  · intro h
    have hne : ¬((compWT log r b).2 < MIN_MATCHES) := not_lt.mpr h
    have heq : get_comp_score log r b =
        ((compWT log r b).1 : ℚ) / ((compWT log r b).2 : ℚ) - 1/2 := by
      rw [hdef, if_neg hne]
    refine ⟨heq, ?_, ?_⟩
    · rw [heq]
      have h0 : (0 : ℚ) ≤ ((compWT log r b).1 : ℚ) / ((compWT log r b).2 : ℚ) :=
        div_nonneg (by positivity) (by positivity)
      linarith
    · rw [heq]
      have hpos : (0 : ℚ) < ((compWT log r b).2 : ℚ) := by
        have : 0 < (compWT log r b).2 := lt_of_lt_of_le (by norm_num [MIN_MATCHES]) h
        exact_mod_cast this
      have hle : ((compWT log r b).1 : ℚ) ≤ ((compWT log r b).2 : ℚ) := by
        have := compCounts_fst_le_snd (build_map (fighterMatches log r) r)
          (build_map (fighterMatches log b) b)
        exact_mod_cast this
      have h1 : ((compWT log r b).1 : ℚ) / ((compWT log r b).2 : ℚ) ≤ 1 :=
        (div_le_one hpos).mpr hle
      linarith

/-- A log giving fighters 1 and 2 three common opponents (3, 4, 5), all
in red's favourable direction. -/
def compLogSmall : List StoredMatch :=
  [mkSM 1 3 1, mkSM 1 4 1, mkSM 1 5 1, mkSM 2 3 3, mkSM 2 4 4, mkSM 2 5 5]

/-- Witness for the amended C8 on a concrete three-common-opponent log. -/
theorem c8_comp_score_amended_witness :
    get_comp_score compLogSmall 1 2 =
      ((compWT compLogSmall 1 2).1 : ℚ) / ((compWT compLogSmall 1 2).2 : ℚ) - 1/2 ∧
    -(1/2) ≤ get_comp_score compLogSmall 1 2 ∧
    get_comp_score compLogSmall 1 2 ≤ 1/2 :=
  (c8_comp_score_amended compLogSmall 1 2).2 (by decide)

/-- A log in which fighter 1 has 101 matches: 98 fillers against
opponents fighter 2 never met, wins against 3 and 4, and - as the 101st
match, dropped by the LIMIT-100 query - a loss to 5; fighter 2 lost to 3
and 4 and beat 5. -/
def compLogBig : List StoredMatch :=
  ((List.range 98).map fun k => mkSM 1 (100 + (k : ℤ)) 1) ++
    [mkSM 1 3 1, mkSM 1 4 1, mkSM 1 5 5, mkSM 2 3 3, mkSM 2 4 4, mkSM 2 5 2]

/-- The (common_wins, common_total) pair of the spec-described
computation over all logged matches. -/
def compWT_all (log : List StoredMatch) (r b : ℤ) : ℕ × ℕ :=
  compCounts (build_map (log.filter fun m => m.fighter_red = r ∨ m.fighter_blue = r) r)
    (build_map (log.filter fun m => m.fighter_red = b ∨ m.fighter_blue = b) b)

set_option maxRecDepth 4000 in
/-- C8 counterexample: with more than 100 logged matches for a fighter the
LIMIT-100 query drops a meeting, so the feature (0, below the sample
minimum) differs from the value computed over all logged matches (1/6). -/
theorem c8_comp_score_counterexample :
    get_comp_score compLogBig 1 2 = 0 ∧
    comp_score_allMatches compLogBig 1 2 = 1/6 ∧
    get_comp_score compLogBig 1 2 ≠ comp_score_allMatches compLogBig 1 2 := by
  have hwt : compWT compLogBig 1 2 = (2, 2) := by decide
  have hwtAll : compWT_all compLogBig 1 2 = (2, 3) := by decide
  have hdef : get_comp_score compLogBig 1 2 =
      if (compWT compLogBig 1 2).2 < MIN_MATCHES then 0
      else ((compWT compLogBig 1 2).1 : ℚ) / ((compWT compLogBig 1 2).2 : ℚ) - 1/2 := rfl
  have hdefAll : comp_score_allMatches compLogBig 1 2 =
      if (compWT_all compLogBig 1 2).2 < MIN_MATCHES then 0
      else ((compWT_all compLogBig 1 2).1 : ℚ) / ((compWT_all compLogBig 1 2).2 : ℚ) - 1/2 := rfl
  rw [hwt] at hdef
  rw [hwtAll] at hdefAll
  norm_num [MIN_MATCHES] at hdef hdefAll
  refine ⟨hdef, ?_, ?_⟩
  · rw [hdefAll]
  · rw [hdef, hdefAll]
    norm_num

/-- The streak component of a replay win is the section 4.4 winner rule. -/
theorem afterWin_streak (t : Tracker) (opp : ℤ) (c : ℝ) :
    (t.afterWin opp c).current_streak = new_streak t.current_streak true := rfl

/-- The streak component of a replay loss is the section 4.4 loser rule. -/
theorem afterLoss_streak (t : Tracker) (opp : ℤ) (c : ℝ) :
    (t.afterLoss opp c).current_streak = new_streak t.current_streak false := rfl

/-- One replay step preserves pointwise agreement between the in-memory
streaks and the section 4.4 streak state. -/
theorem trainStep_streak (fs : ℤ → Tracker) (s : ℤ → ℤ) (m : TrainRow)
    (h : ∀ i, (fs i).current_streak = s i) :
    ∀ i, (trainStep fs m i).current_streak = dbStreakStep s m i := by
  intro i
  simp only [trainStep, dbStreakStep]
  by_cases hw : m.winner = m.fighter_red
  · have hd : decide (m.winner = m.fighter_red) = true := decide_eq_true hw
    rw [if_pos hw, hd, Bool.not_true]
    by_cases hib : i = m.fighter_blue
    · rw [hib, Function.update_same, Function.update_same, afterLoss_streak,
        h m.fighter_blue]
    · rw [Function.update_noteq hib, Function.update_noteq hib]
      by_cases hir : i = m.fighter_red
      · rw [hir, Function.update_same, Function.update_same, afterWin_streak,
          h m.fighter_red]
      · rw [Function.update_noteq hir, Function.update_noteq hir]
        exact h i
  · have hd : decide (m.winner = m.fighter_red) = false := decide_eq_false hw
    rw [if_neg hw, hd, Bool.not_false]
    by_cases hib : i = m.fighter_blue
    · rw [hib, Function.update_same, Function.update_same, afterWin_streak,
        h m.fighter_blue]
    · rw [Function.update_noteq hib, Function.update_noteq hib]
      by_cases hir : i = m.fighter_red
      · rw [hir, Function.update_same, Function.update_same, afterLoss_streak,
          h m.fighter_red]
      · rw [Function.update_noteq hir, Function.update_noteq hir]
        exact h i

/-- Folding the replay from streak-agreeing states keeps the streaks
equal to the section 4.4 streak fold. -/
theorem trainFold_streak (ms : List TrainRow) :
    ∀ (fs : ℤ → Tracker) (s : ℤ → ℤ), (∀ i, (fs i).current_streak = s i) →
      ∀ i, ((ms.foldl trainStep fs) i).current_streak = (ms.foldl dbStreakStep s) i := by
  induction ms with
  | nil => exact fun fs s h => h
  | cons m rest ih =>
    intro fs s h i
    simp only [List.foldl_cons]
    exact ih _ _ (trainStep_streak fs s m h) i

/-- The replay loop splits at any point of the log: the rows for a suffix
are computed from the state obtained by folding exactly the prefix, with
the counter advanced by the prefix length. -/
theorem trainAux_append (p s : List TrainRow) :
    ∀ (fs : ℤ → Tracker) (c : ℕ),
      trainAux fs c (p ++ s) =
        trainAux fs c p ++ trainAux (p.foldl trainStep fs) (c + p.length) s := by
  induction p with
  | nil =>
    intro fs c
    simp [trainAux]
  | cons m rest ih =>
    intro fs c
    simp only [List.cons_append, trainAux, List.foldl_cons, List.length_cons,
      List.append_eq]
    rw [ih (trainStep fs m) (c + 1)]
    have harith : c + 1 + rest.length = c + (rest.length + 1) := by omega
    rw [harith]
    by_cases hc : WARMUP_MATCHES < c + 1
    · rw [if_pos hc, if_pos hc, List.cons_append]
    · rw [if_neg hc, if_neg hc]

/-- C5 (amended): the replay's in-memory streak state tracks the
section 4.4 streak rules exactly after every prefix; the training rows
split at any point of the log, the suffix rows depending on the prefix
only through the folded prefix state; and past the warm-up threshold the
row emitted for a match is computed from exactly the state folded over
the matches strictly before it. The rating state follows the fitter's
own symmetric, un-truncated K=32 update (see the counterexample), and the
query applies no format filter. -/
theorem c5_replay_amended (p s : List TrainRow) (m : TrainRow) :
    (∀ i, (trainState (p ++ m :: s) i).current_streak = dbStreaks (p ++ m :: s) i) ∧
    trainData (p ++ m :: s) = trainData p ++ trainAux (trainState p) p.length (m :: s) ∧
    (WARMUP_MATCHES < p.length + 1 →
      trainAux (trainState p) p.length (m :: s) =
        rowOf (trainState p) m ::
          trainAux (trainStep (trainState p) m) (p.length + 1) s) := by
  refine ⟨?_, ?_, ?_⟩
  · intro i
    exact trainFold_streak (p ++ m :: s) (fun _ => Tracker.init) (fun _ => 0)
      (fun _ => rfl) i
  · have h := trainAux_append p (m :: s) (fun _ => Tracker.init) 0
    rw [Nat.zero_add] at h
    exact h
  · intro hc
    simp only [trainAux]
    rw [if_pos hc]

/-- A concrete 1000-match warm-up prefix for the C5 witness. -/
def warmupLog : List TrainRow := List.replicate 1000 ⟨1, 2, 1⟩

/-- Witness for the amended C5: right past the warm-up threshold the next
match's row is the one computed from the folded prefix state. -/
theorem c5_replay_amended_witness :
    trainAux (trainState warmupLog) warmupLog.length [⟨1, 2, 1⟩] =
      rowOf (trainState warmupLog) ⟨1, 2, 1⟩ ::
        trainAux (trainStep (trainState warmupLog) ⟨1, 2, 1⟩)
          (warmupLog.length + 1) [] :=
  (c5_replay_amended warmupLog [] ⟨1, 2, 1⟩).2.2
    (by
      have hl : warmupLog.length = 1000 := by
        unfold warmupLog
        exact List.length_replicate _ _
      rw [hl]
      norm_num [WARMUP_MATCHES])

/-- A match in which fighter 1 beats fighter 2. -/
def mAB : TrainRow := ⟨1, 2, 1⟩

/-- Two consecutive wins of fighter 1 over fighter 2. -/
def msAB : List TrainRow := [mAB, mAB]

/-- The rating-difference factor 10^(-2/25) after the first update. -/
noncomputable def tenNegFrac : ℝ := (10 : ℝ) ^ (-(2 : ℝ) / 25)

/-- Positivity of the factor. -/
theorem tenNegFrac_pos : 0 < tenNegFrac := Real.rpow_pos_of_pos (by norm_num) _

/-- Its 25th power is exactly 1/100. -/
theorem tenNegFrac_pow : tenNegFrac ^ (25 : ℕ) = 1 / 100 := by
  unfold tenNegFrac
  rw [← Real.rpow_natCast ((10 : ℝ) ^ (-(2 : ℝ) / 25)) 25,
    ← Real.rpow_mul (by norm_num : (0 : ℝ) ≤ 10),
    show (-(2 : ℝ) / 25 * (25 : ℕ) : ℝ) = ((-2 : ℤ) : ℝ) by push_cast; ring,
    Real.rpow_intCast]
  norm_num

/-- A rational lower bound on the factor. -/
theorem tenNegFrac_gt : 7 / 9 < tenNegFrac := by
  by_contra h
  push_neg at h
  have h25 : tenNegFrac ^ (25 : ℕ) ≤ (7 / 9 : ℝ) ^ (25 : ℕ) :=
    pow_le_pow_left₀ tenNegFrac_pos.le h 25
  rw [tenNegFrac_pow] at h25
  norm_num at h25

/-- A rational upper bound on the factor. -/
theorem tenNegFrac_lt : tenNegFrac < 15 / 17 := by
  by_contra h
  push_neg at h
  have h25 : (15 / 17 : ℝ) ^ (25 : ℕ) ≤ tenNegFrac ^ (25 : ℕ) :=
    pow_le_pow_left₀ (by norm_num) h 25
  rw [tenNegFrac_pow] at h25
  norm_num at h25

/-- The replay's rating transfer at equal ratings is exactly 16. -/
theorem change_equal_elo : calculate_elo_change 1500 1500 = 16 := by
  unfold calculate_elo_change K_FACTOR
  norm_num

/-- The replay's rating transfer at (1516, 1484) in closed form. -/
theorem change_1516_1484_eq :
    calculate_elo_change 1516 1484 = 32 * (1 - 1 / (1 + tenNegFrac)) := by
  unfold calculate_elo_change K_FACTOR tenNegFrac
  norm_num

/-- The transfer at (1516, 1484) lies strictly between 14 and 15. -/
theorem d2_bounds :
    14 < 32 * (1 - 1 / (1 + tenNegFrac)) ∧ 32 * (1 - 1 / (1 + tenNegFrac)) < 15 := by
  have hu1 := tenNegFrac_gt
  have hu2 := tenNegFrac_lt
  have hpos : (0 : ℝ) < 1 + tenNegFrac := by linarith [tenNegFrac_pos]
  have hform : (32 : ℝ) * (1 - 1 / (1 + tenNegFrac)) = 32 * tenNegFrac / (1 + tenNegFrac) := by
    field_simp
  rw [hform]
  constructor
  · rw [lt_div_iff₀ hpos]
    linarith
  · rw [div_lt_iff₀ hpos]
    linarith

/-- The paired expected score at equal ratings is one half. -/
theorem es_equal_half (a : ℤ) : expected_score a a = 1 / 2 := by
  have h := expected_score_add a a
  linarith

/-- The stored rating after an equal-rating win. -/
theorem calc_elo_1500_1500_true : calculate_elo 1500 1500 true = 1516 := by
  rw [calculate_elo_win_eq 1500 1500 (by norm_num), es_equal_half,
    show (32 : ℝ) * (1 - 1 / 2) = ((16 : ℤ) : ℝ) by norm_num, Int.floor_intCast]
  norm_num

/-- The stored rating after an equal-rating loss. -/
theorem calc_elo_1500_1500_false : calculate_elo 1500 1500 false = 1484 := by
  rw [calculate_elo_loss_eq 1500 1500 (by norm_num), es_equal_half,
    show (-(32 * (1 / 2)) : ℝ) = ((-16 : ℤ) : ℝ) by norm_num, Int.floor_intCast]
  norm_num

/-- The expected score at (1516, 1484) in closed form. -/
theorem es_1516_1484 : expected_score 1516 1484 = 1 / (1 + tenNegFrac) := by
  rw [expected_score_eq_inv]
  unfold tenNegFrac
  norm_num

/-- The stored rating after a (1516, 1484) win: the floor truncates the
fractional transfer. -/
theorem calc_elo_1516_1484_true : calculate_elo 1516 1484 true = 1530 := by
  rw [calculate_elo_win_eq 1516 1484 (by norm_num), es_1516_1484]
  obtain ⟨h1, h2⟩ := d2_bounds
  have hf : ⌊(32 : ℝ) * (1 - 1 / (1 + tenNegFrac))⌋ = 14 := by
    rw [Int.floor_eq_iff]
    constructor
    · push_cast
      linarith
    · push_cast
      linarith
  rw [hf]
  norm_num


/-- After the first replayed match, fighter 1's in-memory rating is 1516. -/
theorem s1_red_elo : ((trainStep (fun _ => Tracker.init) mAB) 1).tier_elo = 1516 := by
  simp only [trainStep, mAB]
  rw [if_pos trivial, Function.update_noteq (by norm_num : (1 : ℤ) ≠ 2),
    Function.update_same]
  show Tracker.init.tier_elo + calculate_elo_change Tracker.init.tier_elo
      Tracker.init.tier_elo = 1516
  rw [show Tracker.init.tier_elo = (1500 : ℝ) from rfl, change_equal_elo]
  norm_num

/-- After the first replayed match, fighter 2's in-memory rating is 1484. -/
theorem s1_blue_elo : ((trainStep (fun _ => Tracker.init) mAB) 2).tier_elo = 1484 := by
  simp only [trainStep, mAB]
  rw [if_pos trivial, Function.update_same]
  show Tracker.init.tier_elo - calculate_elo_change Tracker.init.tier_elo
      Tracker.init.tier_elo = 1484
  rw [show Tracker.init.tier_elo = (1500 : ℝ) from rfl, change_equal_elo]
  norm_num

/-- After both replayed matches, fighter 1's in-memory rating carries the
un-truncated second transfer. -/
theorem train_elo_final :
    (trainState msAB 1).tier_elo = 1516 + calculate_elo_change 1516 1484 := by
  have h1 := s1_red_elo
  have h2 := s1_blue_elo
  have hs : trainState msAB = trainStep (trainStep (fun _ => Tracker.init) mAB) mAB := rfl
  rw [hs]
  generalize hg : trainStep (fun _ => Tracker.init) mAB = s1 at h1 h2 ⊢
  simp only [trainStep, mAB]
  rw [if_pos trivial, Function.update_noteq (by norm_num : (1 : ℤ) ≠ 2),
    Function.update_same]
  show (s1 1).tier_elo + calculate_elo_change (s1 1).tier_elo (s1 2).tier_elo = _
  rw [h1, h2]

/-- After the first settled match, fighter 1's stored rating is 1516. -/
theorem db1_red_elo : dbEloStep (fun _ => (1500 : ℤ)) mAB 1 = 1516 := by
  simp only [dbEloStep, mAB]
  rw [Function.update_noteq (by norm_num : (1 : ℤ) ≠ 2), Function.update_same]
  exact calc_elo_1500_1500_true

/-- After the first settled match, fighter 2's stored rating is 1484. -/
theorem db1_blue_elo : dbEloStep (fun _ => (1500 : ℤ)) mAB 2 = 1484 := by
  simp only [dbEloStep, mAB]
  rw [Function.update_same]
  exact calc_elo_1500_1500_false

/-- After both settled matches, fighter 1's stored rating is the
truncated 1530. -/
theorem db_elo_final : dbElos msAB 1 = 1530 := by
  have h1 := db1_red_elo
  have h2 := db1_blue_elo
  have hs : dbElos msAB = dbEloStep (dbEloStep (fun _ => 1500) mAB) mAB := rfl
  rw [hs]
  generalize hg : dbEloStep (fun _ => (1500 : ℤ)) mAB = s1 at h1 h2 ⊢
  simp only [dbEloStep, mAB]
  rw [Function.update_noteq (by norm_num : (1 : ℤ) ≠ 2), Function.update_same, h1, h2]
  exact calc_elo_1516_1484_true

/-- C5 counterexample: after two matches between the same pair, the
fitter's in-memory rating (1516 plus a fractional transfer strictly
between 14 and 15) differs from the section 4.4 stored rating (truncated
to 1530): the replay state does not follow the section 4.4 rating rule. -/
theorem c5_replay_counterexample :
    (trainState msAB 1).tier_elo ≠ ((dbElos msAB 1 : ℤ) : ℝ) := by
  rw [train_elo_final, db_elo_final, change_1516_1484_eq]
  obtain ⟨h1, h2⟩ := d2_bounds
  intro h
  push_cast at h
  linarith
